import Mathlib

/-!
Shallow embedding of the training-loop orchestration in the Reformer
language-model repository: the autoregressive trainer
(pretrain/autoregressive-model.py, class ReformerTrainer) and the ELECTRA
trainer (pretrain/electra-model.py, class ElectraTrainer).

Scalar losses are modelled as rationals, model and optimizer state dicts as
opaque natural numbers, and Python dicts as association lists.  Fallible
operations (dict lookup, checkpoint loading) return Option values.
-/

/- ===== Checkpoint dictionary of ReformerTrainer.save / resume ===== -/

/-- Payloads stored in the checkpoint dictionary written by
ReformerTrainer.save: numbers (epoch, train_step), opaque state dicts, and
the per-step loss record. -/
inductive CkptVal where
  | num : Nat → CkptVal
  | modelSD : Nat → CkptVal
  | optimSD : Nat → CkptVal
  | lossDict : List (Nat × ℚ) → CkptVal
deriving DecidableEq

/-- Python dict lookup d[k]: the first binding of key k, or none when the
key is absent (in Python, a raised KeyError). -/
def dictGet (d : List (String × CkptVal)) (k : String) : Option CkptVal :=
  match d with
  | [] => none
  | (k2, v) :: rest => if k2 == k then some v else dictGet rest k

/-- ReformerTrainer.save (autoregressive-model.py lines 203-210): the
dictionary handed to torch.save, keyed exactly as in the source. -/
def reformer_save_dict (epoch : Nat) (model_state optim_state : Nat)
    (losses : List (Nat × ℚ)) (train_step : Nat) : List (String × CkptVal) :=
  [("epoch", CkptVal.num epoch),
   ("model_state_dict", CkptVal.modelSD model_state),
   ("optimizer_state_dict", CkptVal.optimSD optim_state),
   ("losses", CkptVal.lossDict losses),
   ("train_step", CkptVal.num train_step)]

/-- The resumption branch of ReformerTrainer.train (lines 87-95): the
sequence of checkpoint lookups it performs, in source order.  Any failed
lookup aborts the whole branch (an uncaught KeyError in Python). -/
def reformer_resume (ckpt : List (String × CkptVal)) :
    Option (CkptVal × CkptVal × CkptVal × CkptVal × CkptVal) := do
  let start_epoch ← dictGet ckpt "epoch"
  let losses ← dictGet ckpt "loss"
  let train_step ← dictGet ckpt "train_step"
  let model_state ← dictGet ckpt "model_state_dict"
  let optim_state ← dictGet ckpt "optimizer_state_dict"
  return (start_epoch, losses, train_step, model_state, optim_state)

/- ===== ELECTRA checkpoint file names ===== -/

/-- File read for the model state by the resumption branch of
ElectraTrainer.train (electra-model.py line 117). -/
def electra_model_load_file (ckpt_dir : String) : String :=
  ckpt_dir ++ "/electra_model_state_dict.pt"

/-- File read for the optimizer state by the resumption branch (line 118). -/
def electra_optimizer_load_file (ckpt_dir : String) : String :=
  ckpt_dir ++ "/electra_optimizer_state_dict.pt"

/-- File written for the model state by both save branches of
ElectraTrainer.train (lines 173 and 182). -/
def electra_model_save_file (ckpt_dir : String) : String :=
  ckpt_dir ++ "/last_electra_model_state_dict.pt"

/-- File written for the optimizer state by both save branches
(lines 174 and 183). -/
def electra_optimizer_save_file (ckpt_dir : String) : String :=
  ckpt_dir ++ "/last_electra_optimizer_state_dict.pt"

/- ===== Resumed-epoch batch skipping of ReformerTrainer.train ===== -/

/-- Line 92 of autoregressive-model.py: start_step is the saved global step
count when the saved epoch is 0, and otherwise
global_steps * train_batch_size % len(train_dataloader). -/
def reformer_start_step (start_epoch global_steps train_batch_size
    num_train_batches : Nat) : Nat :=
  if start_epoch = 0 then global_steps
  else global_steps * train_batch_size % num_train_batches

/-- Lines 117-118: a batch at index step is skipped when step < start_step. -/
def reformer_skips_batch (start_step step : Nat) : Bool :=
  decide (step < start_step)

/- ===== Inner training-loop step of ReformerTrainer.train ===== -/

/-- Mutable loop state of the ReformerTrainer.train batch loop: the loss
record dict, the global and local step counters, and the running loss sum. -/
structure RLoopState where
  losses : List (Nat × ℚ)
  global_steps : Nat
  local_steps : Nat
  step_loss : ℚ
deriving DecidableEq

/-- Observable effects of processing one batch in ReformerTrainer.train:
whether optimizer.step and model.zero_grad ran, the mean loss reported by
the logging branch (with the losses dict it wrote), and whether a
checkpoint was saved. -/
structure RBatchEff where
  optStep : Bool
  modelZeroGrad : Bool
  logged : Option ℚ
  wroteLosses : Option (List (Nat × ℚ))
  savedCkpt : Bool
deriving DecidableEq

/-- Python dict assignment d[k] = v: replace the binding of k if present,
otherwise append it. -/
def dictSet (d : List (Nat × ℚ)) (k : Nat) (v : ℚ) : List (Nat × ℚ) :=
  match d with
  | [] => [(k, v)]
  | (k2, w) :: rest =>
    if k2 = k then (k, v) :: rest else (k2, w) :: dictSet rest k v

/-- One iteration of the batch loop of ReformerTrainer.train
(lines 119-147), given the scalar loss of the batch: accumulate the loss,
record it under the pre-increment global step, bump both counters, then run
the gradient-accumulation branch, the logging branch (which reports
step_loss / local_steps, dumps the losses dict, and resets the
accumulators), and the checkpoint branch. -/
def reformerBatchStep (gradient_accumulation_steps log_steps ckpt_steps : Nat)
    (s : RLoopState) (loss : ℚ) : RLoopState × RBatchEff :=
  let step_loss := s.step_loss + loss
  let losses := dictSet s.losses s.global_steps loss
  let local_steps := s.local_steps + 1
  let global_steps := s.global_steps + 1
  (⟨losses, global_steps,
    (if global_steps % log_steps = 0 then 0 else local_steps),
    (if global_steps % log_steps = 0 then 0 else step_loss)⟩,
   ⟨decide (global_steps % gradient_accumulation_steps = 0),
    decide (global_steps % gradient_accumulation_steps = 0),
    (if global_steps % log_steps = 0
       then some (step_loss / (local_steps : ℚ)) else none),
    (if global_steps % log_steps = 0 then some losses else none),
    decide (global_steps % ckpt_steps = 0)⟩)

/-- The batch loop of ReformerTrainer.train over a list of batch losses,
returning the final state and the per-batch effects. -/
def reformerRun (g l k : Nat) (s : RLoopState) :
    List ℚ → RLoopState × List RBatchEff
  | [] => (s, [])
  | loss :: rest =>
    let r := reformerBatchStep g l k s loss
    let rr := reformerRun g l k r.1 rest
    (rr.1, r.2 :: rr.2)

/- ===== Inner training-loop step of ElectraTrainer.train ===== -/

/-- Mutable loop state of the ElectraTrainer.train batch loop. -/
structure ELoopState where
  losses : List (Nat × ℚ)
  global_steps : Nat
  local_steps : Nat
  step_loss : ℚ
deriving DecidableEq

/-- Observable effects of one ElectraTrainer.train batch: whether
scheduler.step, optimizer.step, optimizer.zero_grad and model.zero_grad
ran, the logging-branch report, and whether a checkpoint was saved. -/
structure EBatchEff where
  schedStep : Bool
  optStep : Bool
  optZeroGrad : Bool
  modelZeroGrad : Bool
  logged : Option ℚ
  wroteLosses : Option (List (Nat × ℚ))
  savedCkpt : Bool
deriving DecidableEq

/-- One iteration of the batch loop of ElectraTrainer.train
(electra-model.py lines 141-176). -/
def electraBatchStep (gradient_accumulation_steps log_steps ckpt_steps : Nat)
    (s : ELoopState) (loss : ℚ) : ELoopState × EBatchEff :=
  let step_loss := s.step_loss + loss
  let losses := dictSet s.losses s.global_steps loss
  let local_steps := s.local_steps + 1
  let global_steps := s.global_steps + 1
  (⟨losses, global_steps,
    (if global_steps % log_steps = 0 then 0 else local_steps),
    (if global_steps % log_steps = 0 then 0 else step_loss)⟩,
   ⟨decide (global_steps % gradient_accumulation_steps = 0),
    decide (global_steps % gradient_accumulation_steps = 0),
    decide (global_steps % gradient_accumulation_steps = 0),
    decide (global_steps % gradient_accumulation_steps = 0),
    (if global_steps % log_steps = 0
       then some (step_loss / (local_steps : ℚ)) else none),
    (if global_steps % log_steps = 0 then some losses else none),
    decide (global_steps % ckpt_steps = 0)⟩)

/-- The batch loop of ElectraTrainer.train over a list of batch losses. -/
def electraRun (g l k : Nat) (s : ELoopState) :
    List ℚ → ELoopState × List EBatchEff
  | [] => (s, [])
  | loss :: rest =>
    let r := electraBatchStep g l k s loss
    let rr := electraRun g l k r.1 rest
    (rr.1, r.2 :: rr.2)

/- ===== Learning-rate schedule of electra-model.py ===== -/

/-- lr_lambda inside get_linear_schedule_with_warmup (electra-model.py
lines 29-35): max(0, 1 - step/T) multiplied by min(1, step/w). -/
def lr_lambda (num_warmup_steps num_training_steps current_step : ℚ) : ℚ :=
  let learning_rate := max 0 (1 - current_step / num_training_steps)
  learning_rate * min 1 (current_step / num_warmup_steps)

/-- Modelled from the claim: the standard framework linear
warmup-then-linear-decay multiplier, step/w during warmup and
max(0, (T - step)/(T - w)) afterwards. -/
def standard_warmup_decay (num_warmup_steps num_training_steps
    current_step : ℚ) : ℚ :=
  if current_step < num_warmup_steps then current_step / num_warmup_steps
  else max 0 ((num_training_steps - current_step) /
              (num_training_steps - num_warmup_steps))

/- ===== Epoch-level control flow of both train methods ===== -/

/-- Epoch-level events of a train method: running the batch loop of one
epoch, running evaluate over the eval dataloader, and calling
model.train() to restore training mode. -/
inductive TrainEvent where
  | epochBatches : Nat → TrainEvent
  | evalRun : TrainEvent
  | setTrainMode : TrainEvent
deriving DecidableEq

/-- Events of the for-epoch loop starting at epoch s for n iterations:
each iteration runs its batches, then evaluate, then model.train(). -/
def epochEventsFrom (s : Nat) : Nat → List TrainEvent
  | 0 => []
  | n + 1 =>
    TrainEvent.epochBatches s :: TrainEvent.evalRun ::
      TrainEvent.setTrainMode :: epochEventsFrom (s + 1) n

/-- Epoch loop of ReformerTrainer.train (lines 109-151): epochs
range(start_epoch, epochs), each followed by evaluate and model.train(). -/
def reformerEpochLoop (start_epoch epochs : Nat) : List TrainEvent :=
  epochEventsFrom start_epoch (epochs - start_epoch)

/-- Epoch loop of ElectraTrainer.train (lines 134-179): epochs
range(epochs), each followed by evaluate and model.train(). -/
def electraEpochLoop (epochs : Nat) : List TrainEvent :=
  epochEventsFrom 0 epochs

/-- Number of evaluate calls in a list of epoch events. -/
def countEvalRuns : List TrainEvent → Nat
  | [] => 0
  | TrainEvent.evalRun :: rest => countEvalRuns rest + 1
  | _ :: rest => countEvalRuns rest

/- ===== DataParallel dispatch ===== -/

/-- A model reference as the trainers see it: either the plain model or a
model wrapped in nn.DataParallel. -/
inductive ModelRep where
  | plain : ModelRep
  | dataParallel : ModelRep → ModelRep
deriving DecidableEq

/-- isinstance(model, nn.DataParallel). -/
def ModelRep.isDataParallel : ModelRep → Bool
  | ModelRep.dataParallel _ => true
  | ModelRep.plain => false

/-- ReformerTrainer.train lines 99-100: wrap in nn.DataParallel when more
than one GPU is available. -/
def reformerTrainWrap (n_gpu : Nat) (m : ModelRep) : ModelRep :=
  if 1 < n_gpu then ModelRep.dataParallel m else m

/-- ReformerTrainer.evaluate lines 158-159: wrap when more than one GPU is
available and the model is not already an nn.DataParallel instance. -/
def reformerEvalWrap (n_gpu : Nat) (m : ModelRep) : ModelRep :=
  if 1 < n_gpu ∧ m.isDataParallel = false then ModelRep.dataParallel m else m

/-- ElectraTrainer.train lines 124-125: identical wrap condition. -/
def electraTrainWrap (n_gpu : Nat) (m : ModelRep) : ModelRep :=
  if 1 < n_gpu then ModelRep.dataParallel m else m

/-- ElectraTrainer.evaluate lines 188-189: identical wrap condition. -/
def electraEvalWrap (n_gpu : Nat) (m : ModelRep) : ModelRep :=
  if 1 < n_gpu ∧ m.isDataParallel = false then ModelRep.dataParallel m else m

/- ===== Evaluation loop bodies ===== -/

/-- Mutable state of the evaluate loops: running loss and perplexity sums
and the eval step counter. -/
structure EvalSt where
  eval_loss : ℚ
  perplexity : ℚ
  eval_steps : Nat
deriving DecidableEq

/-- One iteration of ReformerTrainer.evaluate (lines 168-199): accumulate
the batch loss and perplexity, bump eval_steps, and report the running
means eval_loss / eval_steps and perplexity / eval_steps.  On more than
one GPU the scalar loss is additionally averaged over devices, which on a
scalar is the identity. -/
def reformerEvalStep (n_gpu : Nat) (s : EvalSt) (loss perp : ℚ) :
    EvalSt × ℚ × ℚ :=
  let tmp_eval_loss := if 1 < n_gpu then loss else loss
  let eval_loss := s.eval_loss + tmp_eval_loss
  let perplexity := s.perplexity + perp
  let eval_steps := s.eval_steps + 1
  (⟨eval_loss, perplexity, eval_steps⟩,
   eval_loss / (eval_steps : ℚ), perplexity / (eval_steps : ℚ))

/-- One iteration of ElectraTrainer.evaluate (lines 198-225), identical in
structure. -/
def electraEvalStep (n_gpu : Nat) (s : EvalSt) (loss perp : ℚ) :
    EvalSt × ℚ × ℚ :=
  let tmp_eval_loss := if 1 < n_gpu then loss else loss
  let eval_loss := s.eval_loss + tmp_eval_loss
  let perplexity := s.perplexity + perp
  let eval_steps := s.eval_steps + 1
  (⟨eval_loss, perplexity, eval_steps⟩,
   eval_loss / (eval_steps : ℚ), perplexity / (eval_steps : ℚ))

/- ===== ELECTRA resumption branch with its try/except ===== -/

/-- The two checkpoint files the ELECTRA resumption branch tries to load:
none models a file whose torch.load raises. -/
structure ElectraCkptFiles where
  modelFile : Option Nat
  optimFile : Option Nat
deriving DecidableEq

/-- The try/except resumption branch of ElectraTrainer.train
(lines 113-120): load the model state, then the optimizer state; any
exception is caught, keeping whatever assignments already happened. -/
def electraResumeBranch (files : ElectraCkptFiles)
    (model_state optim_state : Nat) : Nat × Nat :=
  match files.modelFile with
  | none => (model_state, optim_state)
  | some m =>
    match files.optimFile with
    | none => (m, optim_state)
    | some o => (m, o)

/- ===================== Theorems ===================== -/

/-- Claim C1 (code bug): the checkpoint dictionary written by
ReformerTrainer.save never resumes: save stores the loss record under the
key named losses, while the resumption branch reads the key named loss, so
every resumption attempt from a saved checkpoint fails with a KeyError and
restores nothing. -/
theorem reformer_checkpoint_resume_keyerror
    (epoch model_state optim_state : Nat) (losses : List (Nat × ℚ))
    (train_step : Nat) :
    reformer_resume
      (reformer_save_dict epoch model_state optim_state losses train_step) =
      none := rfl

/-- Claim C2 (code bug): for every checkpoint directory, the file names the
save branches of ElectraTrainer.train write differ from the file names its
resumption branch reads, so a saved checkpoint is never loaded back. -/
theorem electra_ckpt_filenames_mismatch (ckpt_dir : String) :
    electra_model_save_file ckpt_dir ≠ electra_model_load_file ckpt_dir ∧
    electra_optimizer_save_file ckpt_dir ≠
      electra_optimizer_load_file ckpt_dir := by
  constructor
  · intro h
    have h2 := congrArg String.length h
    simp only [electra_model_save_file, electra_model_load_file,
      String.length_append] at h2
    rw [show ("/last_electra_model_state_dict.pt" : String).length = 33
          from rfl,
        show ("/electra_model_state_dict.pt" : String).length = 28
          from rfl] at h2
    omega
  · intro h
    have h2 := congrArg String.length h
    simp only [electra_optimizer_save_file, electra_optimizer_load_file,
      String.length_append] at h2
    rw [show ("/last_electra_optimizer_state_dict.pt" : String).length = 37
          from rfl,
        show ("/electra_optimizer_state_dict.pt" : String).length = 32
          from rfl] at h2
    omega

/-- Claim C4 (code bug): resuming with start_epoch = 1, saved
global_steps = 13, train_batch_size = 8 and 10 batches per epoch, the code
sets start_step = 13 * 8 % 10 = 4 and skips 4 batches of the resumed
epoch, while only 13 - 1 * 10 = 3 batches of that epoch had been consumed
according to the saved global step count. -/
theorem reformer_start_step_miscount :
    reformer_start_step 1 13 8 10 = 4 ∧
    ((List.range 10).filter
        (fun step => reformer_skips_batch (reformer_start_step 1 13 8 10)
          step)).length = 4 ∧
    13 - 1 * 10 = 3 ∧
    reformer_start_step 1 13 8 10 ≠ 13 - 1 * 10 := by
  decide

/-- Claim C5 counterexample: at num_warmup_steps = 10,
num_training_steps = 100, current_step = 5 the lr_lambda of the
repository returns 19/40, while the standard framework schedule returns
1/2, so the two schedules are not equal. -/
theorem lr_schedule_differs_from_standard :
    lr_lambda 10 100 5 = 19 / 40 ∧
    standard_warmup_decay 10 100 5 = 1 / 2 ∧
    lr_lambda 10 100 5 ≠ standard_warmup_decay 10 100 5 := by
  refine ⟨?_, ?_, ?_⟩ <;>
    norm_num [lr_lambda, standard_warmup_decay]

/-- Claim C10 counterexample: when the model-state file loads to state 7
but the optimizer-state load raises, the resumption branch of
ElectraTrainer.train returns model state 7 with the optimizer state passed
in, so the model was restored without the optimizer: the final state is
not the pair passed in. -/
theorem electra_resume_partial_restore :
    electraResumeBranch ⟨some 7, none⟩ 1 2 = (7, 2) ∧
    electraResumeBranch ⟨some 7, none⟩ 1 2 ≠ (1, 2) := by
  decide

/-- Claim C5 (amended): the scheduler in electra-model.py is custom.  For
0 < w < T, its lr_lambda equals (step / w) * (1 - step / T) during warmup
(not step / w), equals 1 - step / T for w less-or-equal step
less-or-equal T (not (T - step) / (T - w)), and equals 0 past T. -/
theorem lr_lambda_piecewise (w T step : ℚ) (hw : 0 < w) (hwT : w < T) :
    (step < w → lr_lambda w T step = step / w * (1 - step / T)) ∧
    (w ≤ step → step ≤ T → lr_lambda w T step = 1 - step / T) ∧
    (T ≤ step → lr_lambda w T step = 0) := by
  have hT : 0 < T := hw.trans hwT
  refine ⟨?_, ?_, ?_⟩ <;> simp only [lr_lambda]
  · intro h
    have h1 : step / T ≤ 1 := by
      rw [div_le_one hT]
      exact le_of_lt (h.trans hwT)
    have h2 : step / w < 1 := (div_lt_one hw).mpr h
    rw [max_eq_right (by linarith), min_eq_right (le_of_lt h2)]
    ring
  · intro h hle
    have h1 : step / T ≤ 1 := (div_le_one hT).mpr hle
    have h2 : (1 : ℚ) ≤ step / w := (one_le_div hw).mpr h
    rw [max_eq_right (by linarith), min_eq_left h2, mul_one]
  · intro h
    have h1 : (1 : ℚ) ≤ step / T := (one_le_div hT).mpr h
    rw [max_eq_left (by linarith), zero_mul]

/-- Witness for lr_lambda_piecewise at w = 10, T = 100, step = 5. -/
theorem lr_lambda_piecewise_witness :
    (0 : ℚ) < 10 ∧ (10 : ℚ) < 100 ∧ (5 : ℚ) < 10 ∧
    lr_lambda 10 100 5 = 5 / 10 * (1 - 5 / 100) :=
  ⟨by norm_num, by norm_num, by norm_num,
   (lr_lambda_piecewise 10 100 5 (by norm_num) (by norm_num)).1
     (by norm_num)⟩

/-- Claim C10 (amended): the resumption branch of ElectraTrainer.train
absorbs any load exception and training proceeds, but the restore is not
atomic: if the model-state load raises, nothing is restored; if the
model-state load succeeds and the optimizer-state load raises, the model
keeps the loaded state while the optimizer keeps the state passed in. -/
theorem electra_resume_catch_semantics (files : ElectraCkptFiles)
    (model_state optim_state : Nat) :
    (files.modelFile = none →
       electraResumeBranch files model_state optim_state =
         (model_state, optim_state)) ∧
    (∀ m, files.modelFile = some m → files.optimFile = none →
       electraResumeBranch files model_state optim_state =
         (m, optim_state)) ∧
    (∀ m o, files.modelFile = some m → files.optimFile = some o →
       electraResumeBranch files model_state optim_state = (m, o)) := by
  obtain ⟨mf, of⟩ := files
  refine ⟨?_, ?_, ?_⟩
  · intro h
    subst h
    rfl
  · intro m hm ho
    subst hm
    subst ho
    rfl
  · intro m o hm ho
    subst hm
    subst ho
    rfl

/-- Witness for electra_resume_catch_semantics: with both loads raising,
the branch keeps the states passed in. -/
theorem electra_resume_catch_semantics_witness :
    (ElectraCkptFiles.mk none none).modelFile = none ∧
    electraResumeBranch ⟨none, none⟩ 1 2 = (1, 2) :=
  ⟨rfl, (electra_resume_catch_semantics ⟨none, none⟩ 1 2).1 rfl⟩

/-- Claim C3: in both trainers, at every batch the post-increment global
step counter advances by one, the optimizer parameter update fires exactly
when that counter is a positive multiple of gradient_accumulation_steps,
and the gradient zeroing (plus, in the ELECTRA trainer, the scheduler step
and optimizer.zero_grad) happens exactly at those same batches. -/
theorem grad_accumulation_update_schedule
    (gAcc log_steps ckpt_steps : Nat) (hg : 1 ≤ gAcc)
    (s : RLoopState) (t : ELoopState) (loss : ℚ) :
    ((reformerBatchStep gAcc log_steps ckpt_steps s loss).2.optStep = true ↔
       0 < (reformerBatchStep gAcc log_steps ckpt_steps s loss).1.global_steps ∧
       gAcc ∣ (reformerBatchStep gAcc log_steps ckpt_steps s loss).1.global_steps) ∧
    (reformerBatchStep gAcc log_steps ckpt_steps s loss).2.modelZeroGrad =
      (reformerBatchStep gAcc log_steps ckpt_steps s loss).2.optStep ∧
    (reformerBatchStep gAcc log_steps ckpt_steps s loss).1.global_steps =
      s.global_steps + 1 ∧
    ((electraBatchStep gAcc log_steps ckpt_steps t loss).2.optStep = true ↔
       0 < (electraBatchStep gAcc log_steps ckpt_steps t loss).1.global_steps ∧
       gAcc ∣ (electraBatchStep gAcc log_steps ckpt_steps t loss).1.global_steps) ∧
    (electraBatchStep gAcc log_steps ckpt_steps t loss).2.schedStep =
      (electraBatchStep gAcc log_steps ckpt_steps t loss).2.optStep ∧
    (electraBatchStep gAcc log_steps ckpt_steps t loss).2.optZeroGrad =
      (electraBatchStep gAcc log_steps ckpt_steps t loss).2.optStep ∧
    (electraBatchStep gAcc log_steps ckpt_steps t loss).2.modelZeroGrad =
      (electraBatchStep gAcc log_steps ckpt_steps t loss).2.optStep ∧
    (electraBatchStep gAcc log_steps ckpt_steps t loss).1.global_steps =
      t.global_steps + 1 := by
  refine ⟨?_, rfl, rfl, ?_, rfl, rfl, rfl, rfl⟩
  · simp only [reformerBatchStep, decide_eq_true_eq]
    constructor
    · intro hmod
      exact ⟨Nat.succ_pos _, Nat.dvd_of_mod_eq_zero hmod⟩
    · intro hdvd
      exact Nat.mod_eq_zero_of_dvd hdvd.2
  · simp only [electraBatchStep, decide_eq_true_eq]
    constructor
    · intro hmod
      exact ⟨Nat.succ_pos _, Nat.dvd_of_mod_eq_zero hmod⟩
    · intro hdvd
      exact Nat.mod_eq_zero_of_dvd hdvd.2

/-- Witness for grad_accumulation_update_schedule with
gradient_accumulation_steps = 2 on fresh loop states. -/
theorem grad_accumulation_update_schedule_witness :
    1 ≤ 2 ∧
    ((reformerBatchStep 2 5 7 ⟨[], 0, 0, 0⟩ 1).2.optStep = true ↔
       0 < (reformerBatchStep 2 5 7 ⟨[], 0, 0, 0⟩ 1).1.global_steps ∧
       2 ∣ (reformerBatchStep 2 5 7 ⟨[], 0, 0, 0⟩ 1).1.global_steps) :=
  ⟨by decide,
   (grad_accumulation_update_schedule 2 5 7 (by decide) ⟨[], 0, 0, 0⟩
      ⟨[], 0, 0, 0⟩ 1).1⟩

/-- Helper: the epoch loop makes exactly one evaluate call per iteration. -/
theorem epochEventsFrom_count (s n : Nat) :
    countEvalRuns (epochEventsFrom s n) = n := by
  induction n generalizing s with
  | zero => rfl
  | succ n ih => simp [epochEventsFrom, countEvalRuns, ih]

/-- Helper: the epoch loop body unfolds to a three-event block followed by
the remaining iterations. -/
theorem epochEventsFrom_succ (s n : Nat) :
    epochEventsFrom s (n + 1) =
      TrainEvent.epochBatches s :: TrainEvent.evalRun ::
        TrainEvent.setTrainMode :: epochEventsFrom (s + 1) n := by
  simp [epochEventsFrom]

/-- Helper: indexing past a three-element prefix. -/
theorem getElem?_cons_add_three {α : Type} (x y z : α) (t : List α)
    (j : Nat) : (x :: y :: z :: t)[j + 3]? = t[j]? := by
  rw [show j + 3 = (j + 2) + 1 from rfl, List.getElem?_cons_succ,
      show j + 2 = (j + 1) + 1 from rfl, List.getElem?_cons_succ,
      List.getElem?_cons_succ]

/-- Helper: in the epoch loop, every evaluate event is immediately followed
by the model.train() event. -/
theorem epochEventsFrom_eval_then_train (s n : Nat) :
    ∀ i, (epochEventsFrom s n)[i]? = some TrainEvent.evalRun →
      (epochEventsFrom s n)[i + 1]? = some TrainEvent.setTrainMode := by
  induction n generalizing s with
  | zero =>
    intro i h
    simp [epochEventsFrom] at h
  | succ n ih =>
    intro i h
    rw [epochEventsFrom_succ] at h ⊢
    match i with
    | 0 => simp at h
    | 1 => simp
    | 2 => simp at h
    | (j + 3) =>
      rw [getElem?_cons_add_three] at h
      rw [show j + 3 + 1 = (j + 1) + 3 from rfl, getElem?_cons_add_three]
      exact ih (s + 1) j h

/-- Helper: in the epoch loop, the batch loop of every epoch is immediately
followed by an evaluate event. -/
theorem epochEventsFrom_batches_then_eval (s n : Nat) :
    ∀ i e, (epochEventsFrom s n)[i]? = some (TrainEvent.epochBatches e) →
      (epochEventsFrom s n)[i + 1]? = some TrainEvent.evalRun := by
  induction n generalizing s with
  | zero =>
    intro i e h
    simp [epochEventsFrom] at h
  | succ n ih =>
    intro i e h
    rw [epochEventsFrom_succ] at h ⊢
    match i with
    | 0 => simp
    | 1 => simp at h
    | 2 => simp at h
    | (j + 3) =>
      rw [getElem?_cons_add_three] at h
      rw [show j + 3 + 1 = (j + 1) + 3 from rfl, getElem?_cons_add_three]
      exact ih (s + 1) j e h

/-- Claim C7: in both trainers, evaluate runs exactly once per executed
training epoch (epochs minus start_epoch many times for the Reformer
trainer, epochs many times for the ELECTRA trainer), every epochs batch
loop is immediately followed by the evaluate call, and every evaluate call
is immediately followed by the model.train() call restoring training mode
before the next epoch begins. -/
theorem evaluate_once_per_epoch (start_epoch epochs i e : Nat) :
    countEvalRuns (reformerEpochLoop start_epoch epochs) =
      epochs - start_epoch ∧
    countEvalRuns (electraEpochLoop epochs) = epochs ∧
    ((reformerEpochLoop start_epoch epochs)[i]? = some TrainEvent.evalRun →
       (reformerEpochLoop start_epoch epochs)[i + 1]? =
         some TrainEvent.setTrainMode) ∧
    ((reformerEpochLoop start_epoch epochs)[i]? =
        some (TrainEvent.epochBatches e) →
       (reformerEpochLoop start_epoch epochs)[i + 1]? =
         some TrainEvent.evalRun) ∧
    ((electraEpochLoop epochs)[i]? = some TrainEvent.evalRun →
       (electraEpochLoop epochs)[i + 1]? = some TrainEvent.setTrainMode) ∧
    ((electraEpochLoop epochs)[i]? = some (TrainEvent.epochBatches e) →
       (electraEpochLoop epochs)[i + 1]? = some TrainEvent.evalRun) :=
  ⟨epochEventsFrom_count start_epoch (epochs - start_epoch),
   epochEventsFrom_count 0 epochs,
   epochEventsFrom_eval_then_train start_epoch (epochs - start_epoch) i,
   epochEventsFrom_batches_then_eval start_epoch (epochs - start_epoch) i e,
   epochEventsFrom_eval_then_train 0 epochs i,
   epochEventsFrom_batches_then_eval 0 epochs i e⟩

/-- Witness for evaluate_once_per_epoch: resuming at epoch 1 of 3, the
event at index 1 is the evaluate call and it is followed by the
model.train() call. -/
theorem evaluate_once_per_epoch_witness :
    (reformerEpochLoop 1 3)[1]? = some TrainEvent.evalRun ∧
    (reformerEpochLoop 1 3)[2]? = some TrainEvent.setTrainMode :=
  ⟨rfl, (evaluate_once_per_epoch 1 3 1 0).2.2.1 rfl⟩

/-- Claim C8: in both trainers, with more than one GPU the train method
wraps the model in nn.DataParallel and evaluate wraps it exactly when it
is not already wrapped; with at most one GPU neither method ever wraps. -/
theorem data_parallel_dispatch (n_gpu : Nat) (m : ModelRep) :
    (1 < n_gpu →
       reformerTrainWrap n_gpu m = ModelRep.dataParallel m ∧
       electraTrainWrap n_gpu m = ModelRep.dataParallel m ∧
       (m.isDataParallel = false →
          reformerEvalWrap n_gpu m = ModelRep.dataParallel m ∧
          electraEvalWrap n_gpu m = ModelRep.dataParallel m) ∧
       (m.isDataParallel = true →
          reformerEvalWrap n_gpu m = m ∧ electraEvalWrap n_gpu m = m)) ∧
    (n_gpu ≤ 1 →
       reformerTrainWrap n_gpu m = m ∧ electraTrainWrap n_gpu m = m ∧
       reformerEvalWrap n_gpu m = m ∧ electraEvalWrap n_gpu m = m) := by
  constructor
  · intro h
    refine ⟨if_pos h, if_pos h, ?_, ?_⟩
    · intro hm
      constructor <;> simp [reformerEvalWrap, electraEvalWrap, h, hm]
    · intro hm
      constructor <;> simp [reformerEvalWrap, electraEvalWrap, h, hm]
  · intro h
    have h2 : ¬ 1 < n_gpu := by omega
    exact ⟨if_neg h2, if_neg h2,
      by simp [reformerEvalWrap, h2], by simp [electraEvalWrap, h2]⟩

/-- Witness for data_parallel_dispatch: two GPUs wrap a plain model. -/
theorem data_parallel_dispatch_witness :
    1 < 2 ∧
    reformerTrainWrap 2 ModelRep.plain =
      ModelRep.dataParallel ModelRep.plain :=
  ⟨by decide, ((data_parallel_dispatch 2 ModelRep.plain).1 (by decide)).1⟩

/-- Claim C9: whenever the logging branch of either train loop reports a
mean, the divisor is the just-incremented local step counter, which is
strictly positive; and in both evaluate loops every reported mean divides
by the just-incremented eval step counter, also strictly positive. -/
theorem loss_mean_divisor_positive (g l k n_gpu : Nat) (s : RLoopState)
    (t : ELoopState) (u v : EvalSt) (loss perp m : ℚ) :
    ((reformerBatchStep g l k s loss).2.logged = some m →
       m = (s.step_loss + loss) / ((s.local_steps : ℚ) + 1) ∧
       0 < s.local_steps + 1) ∧
    ((electraBatchStep g l k t loss).2.logged = some m →
       m = (t.step_loss + loss) / ((t.local_steps : ℚ) + 1) ∧
       0 < t.local_steps + 1) ∧
    ((reformerEvalStep n_gpu u loss perp).2.1 =
        (u.eval_loss + loss) / ((u.eval_steps : ℚ) + 1) ∧
     (reformerEvalStep n_gpu u loss perp).2.2 =
        (u.perplexity + perp) / ((u.eval_steps : ℚ) + 1) ∧
     0 < u.eval_steps + 1) ∧
    ((electraEvalStep n_gpu v loss perp).2.1 =
        (v.eval_loss + loss) / ((v.eval_steps : ℚ) + 1) ∧
     (electraEvalStep n_gpu v loss perp).2.2 =
        (v.perplexity + perp) / ((v.eval_steps : ℚ) + 1) ∧
     0 < v.eval_steps + 1) := by
  refine ⟨?_, ?_, ?_, ?_⟩
  · intro h
    simp only [reformerBatchStep] at h
    by_cases hc : (s.global_steps + 1) % l = 0
    · rw [if_pos hc] at h
      refine ⟨?_, Nat.succ_pos _⟩
      have h2 := (Option.some.inj h).symm
      rw [h2]
      push_cast
      ring
    · rw [if_neg hc] at h
      simp at h
  · intro h
    simp only [electraBatchStep] at h
    by_cases hc : (t.global_steps + 1) % l = 0
    · rw [if_pos hc] at h
      refine ⟨?_, Nat.succ_pos _⟩
      have h2 := (Option.some.inj h).symm
      rw [h2]
      push_cast
      ring
    · rw [if_neg hc] at h
      simp at h
  · refine ⟨?_, ?_, Nat.succ_pos _⟩ <;>
      · simp only [reformerEvalStep, ite_self]
        push_cast
        ring
  · refine ⟨?_, ?_, Nat.succ_pos _⟩ <;>
      · simp only [electraEvalStep, ite_self]
        push_cast
        ring

/-- Witness for loss_mean_divisor_positive with log_steps = 1 so the
logging branch fires at the first batch. -/
theorem loss_mean_divisor_positive_witness :
    (reformerBatchStep 1 1 1 ⟨[], 0, 0, 0⟩ 5).2.logged = some 5 ∧
    ((5 : ℚ) = (0 + 5) / (((0 : ℕ) : ℚ) + 1) ∧ 0 < 0 + 1) :=
  ⟨by norm_num [reformerBatchStep],
   (loss_mean_divisor_positive 1 1 1 0 ⟨[], 0, 0, 0⟩ ⟨[], 0, 0, 0⟩
      ⟨0, 0, 0⟩ ⟨0, 0, 0⟩ 5 2 5).1 (by norm_num [reformerBatchStep])⟩

/-- Helper: one-step unfolding of the Reformer batch loop. -/
theorem reformerRun_cons (g l k : Nat) (s : RLoopState) (a : ℚ)
    (rest : List ℚ) :
    reformerRun g l k s (a :: rest) =
      ((reformerRun g l k (reformerBatchStep g l k s a).1 rest).1,
       (reformerBatchStep g l k s a).2 ::
         (reformerRun g l k (reformerBatchStep g l k s a).1 rest).2) := rfl

/-- Helper: when the logging branch does not fire, the new Reformer loop
state accumulates the batch loss into both running accumulators. -/
theorem reformerBatchStep_state_no_log (g l k : Nat) (s : RLoopState)
    (a : ℚ) (h : (s.global_steps + 1) % l ≠ 0) :
    (reformerBatchStep g l k s a).1 =
      ⟨dictSet s.losses s.global_steps a, s.global_steps + 1,
       s.local_steps + 1, s.step_loss + a⟩ := by
  simp [reformerBatchStep, h]

/-- Helper: when the logging branch fires, the Reformer batch step reports
the accumulated mean, dumps the updated losses dict, and resets both
accumulators to zero. -/
theorem reformerBatchStep_log (g l k : Nat) (s : RLoopState) (a : ℚ)
    (h : (s.global_steps + 1) % l = 0) :
    (reformerBatchStep g l k s a).1 =
      ⟨dictSet s.losses s.global_steps a, s.global_steps + 1, 0, 0⟩ ∧
    (reformerBatchStep g l k s a).2.logged =
      some ((s.step_loss + a) / ((s.local_steps : ℚ) + 1)) ∧
    (reformerBatchStep g l k s a).2.wroteLosses =
      some (dictSet s.losses s.global_steps a) := by
  refine ⟨?_, ?_, ?_⟩ <;> simp [reformerBatchStep, h]

/-- Helper: over a segment of batches in which the logging branch is
silent everywhere except at the last batch, the Reformer batch loop
reports at that last batch the accumulated mean over the pending prefix
plus the whole segment, dumps the losses dict as accumulated through that
batch, and leaves both accumulators reset. -/
theorem reformerRun_segment (g l k : Nat) (L : List ℚ) :
    ∀ s : RLoopState,
      (∀ j, j + 1 < L.length → (s.global_steps + j + 1) % l ≠ 0) →
      (s.global_steps + L.length) % l = 0 →
      L ≠ [] →
      ∃ ef, (reformerRun g l k s L).2[L.length - 1]? = some ef ∧
        ef.logged = some ((s.step_loss + L.sum) /
          ((s.local_steps : ℚ) + (L.length : ℚ))) ∧
        ef.wroteLosses = some ((reformerRun g l k s L).1.losses) ∧
        (reformerRun g l k s L).1.step_loss = 0 ∧
        (reformerRun g l k s L).1.local_steps = 0 := by
  induction L with
  | nil =>
    intro s _ _ hne
    exact absurd rfl hne
  | cons a rest ih =>
    intro s hmid hend _
    cases rest with
    | nil =>
      have hl : (s.global_steps + 1) % l = 0 := by simpa using hend
      obtain ⟨h1, h2, h3⟩ := reformerBatchStep_log g l k s a hl
      refine ⟨(reformerBatchStep g l k s a).2, rfl, ?_, ?_, ?_, ?_⟩
      · rw [h2]
        simp
      · rw [h3]
        rfl
      · show (reformerBatchStep g l k s a).1.step_loss = 0
        rw [h1]
      · show (reformerBatchStep g l k s a).1.local_steps = 0
        rw [h1]
    | cons b rest2 =>
      have h0 : (s.global_steps + 1) % l ≠ 0 := by
        have hp : 0 + 1 < (a :: b :: rest2).length := by
          simp only [List.length_cons]
          omega
        simpa using hmid 0 hp
      have hstate := reformerBatchStep_state_no_log g l k s a h0
      have hgs : (reformerBatchStep g l k s a).1.global_steps =
          s.global_steps + 1 := by rw [hstate]
      have hls : (reformerBatchStep g l k s a).1.local_steps =
          s.local_steps + 1 := by rw [hstate]
      have hsl : (reformerBatchStep g l k s a).1.step_loss =
          s.step_loss + a := by rw [hstate]
      have hmid1 : ∀ j, j + 1 < (b :: rest2).length →
          ((reformerBatchStep g l k s a).1.global_steps + j + 1) % l ≠ 0 := by
        intro j hj
        have e1 : (reformerBatchStep g l k s a).1.global_steps + j + 1 =
            s.global_steps + (j + 1) + 1 := by
          rw [hgs]
          omega
        rw [e1]
        refine hmid (j + 1) ?_
        simp only [List.length_cons] at hj ⊢
        omega
      have hend1 : ((reformerBatchStep g l k s a).1.global_steps +
          (b :: rest2).length) % l = 0 := by
        have e1 : (reformerBatchStep g l k s a).1.global_steps +
            (b :: rest2).length =
            s.global_steps + (a :: b :: rest2).length := by
          rw [hgs]
          simp only [List.length_cons]
          omega
        rw [e1]
        exact hend
      obtain ⟨ef, he1, he2, he3, he4, he5⟩ :=
        ih (reformerBatchStep g l k s a).1 hmid1 hend1 (by simp)
      have hidx : (reformerRun g l k s (a :: b :: rest2)).2[
          (a :: b :: rest2).length - 1]? =
          (reformerRun g l k (reformerBatchStep g l k s a).1
            (b :: rest2)).2[(b :: rest2).length - 1]? := by
        rw [reformerRun_cons]
        simp only [List.length_cons, Nat.add_sub_cancel,
          List.getElem?_cons_succ]
      have hstate1 : (reformerRun g l k s (a :: b :: rest2)).1 =
          (reformerRun g l k (reformerBatchStep g l k s a).1
            (b :: rest2)).1 := by
        rw [reformerRun_cons]
      refine ⟨ef, hidx.trans he1, ?_, ?_, ?_, ?_⟩
      · rw [he2]
        congr 1
        rw [hsl, hls]
        simp only [List.sum_cons, List.length_cons]
        push_cast
        ring
      · rw [hstate1]
        exact he3
      · rw [hstate1]
        exact he4
      · rw [hstate1]
        exact he5

/-- Helper: one-step unfolding of the ELECTRA batch loop. -/
theorem electraRun_cons (g l k : Nat) (s : ELoopState) (a : ℚ)
    (rest : List ℚ) :
    electraRun g l k s (a :: rest) =
      ((electraRun g l k (electraBatchStep g l k s a).1 rest).1,
       (electraBatchStep g l k s a).2 ::
         (electraRun g l k (electraBatchStep g l k s a).1 rest).2) := rfl

/-- Helper: when the logging branch does not fire, the new ELECTRA loop
state accumulates the batch loss into both running accumulators. -/
theorem electraBatchStep_state_no_log (g l k : Nat) (s : ELoopState)
    (a : ℚ) (h : (s.global_steps + 1) % l ≠ 0) :
    (electraBatchStep g l k s a).1 =
      ⟨dictSet s.losses s.global_steps a, s.global_steps + 1,
       s.local_steps + 1, s.step_loss + a⟩ := by
  simp [electraBatchStep, h]

/-- Helper: when the logging branch fires, the ELECTRA batch step reports
the accumulated mean, dumps the updated losses dict, and resets both
accumulators to zero. -/
theorem electraBatchStep_log (g l k : Nat) (s : ELoopState) (a : ℚ)
    (h : (s.global_steps + 1) % l = 0) :
    (electraBatchStep g l k s a).1 =
      ⟨dictSet s.losses s.global_steps a, s.global_steps + 1, 0, 0⟩ ∧
    (electraBatchStep g l k s a).2.logged =
      some ((s.step_loss + a) / ((s.local_steps : ℚ) + 1)) ∧
    (electraBatchStep g l k s a).2.wroteLosses =
      some (dictSet s.losses s.global_steps a) := by
  refine ⟨?_, ?_, ?_⟩ <;> simp [electraBatchStep, h]

/-- Helper: the ELECTRA analogue of reformerRun_segment. -/
theorem electraRun_segment (g l k : Nat) (L : List ℚ) :
    ∀ s : ELoopState,
      (∀ j, j + 1 < L.length → (s.global_steps + j + 1) % l ≠ 0) →
      (s.global_steps + L.length) % l = 0 →
      L ≠ [] →
      ∃ ef, (electraRun g l k s L).2[L.length - 1]? = some ef ∧
        ef.logged = some ((s.step_loss + L.sum) /
          ((s.local_steps : ℚ) + (L.length : ℚ))) ∧
        ef.wroteLosses = some ((electraRun g l k s L).1.losses) ∧
        (electraRun g l k s L).1.step_loss = 0 ∧
        (electraRun g l k s L).1.local_steps = 0 := by
  induction L with
  | nil =>
    intro s _ _ hne
    exact absurd rfl hne
  | cons a rest ih =>
    intro s hmid hend _
    cases rest with
    | nil =>
      have hl : (s.global_steps + 1) % l = 0 := by simpa using hend
      obtain ⟨h1, h2, h3⟩ := electraBatchStep_log g l k s a hl
      refine ⟨(electraBatchStep g l k s a).2, rfl, ?_, ?_, ?_, ?_⟩
      · rw [h2]
        simp
      · rw [h3]
        rfl
      · show (electraBatchStep g l k s a).1.step_loss = 0
        rw [h1]
      · show (electraBatchStep g l k s a).1.local_steps = 0
        rw [h1]
    | cons b rest2 =>
      have h0 : (s.global_steps + 1) % l ≠ 0 := by
        have hp : 0 + 1 < (a :: b :: rest2).length := by
          simp only [List.length_cons]
          omega
        simpa using hmid 0 hp
      have hstate := electraBatchStep_state_no_log g l k s a h0
      have hgs : (electraBatchStep g l k s a).1.global_steps =
          s.global_steps + 1 := by rw [hstate]
      have hls : (electraBatchStep g l k s a).1.local_steps =
          s.local_steps + 1 := by rw [hstate]
      have hsl : (electraBatchStep g l k s a).1.step_loss =
          s.step_loss + a := by rw [hstate]
      have hmid1 : ∀ j, j + 1 < (b :: rest2).length →
          ((electraBatchStep g l k s a).1.global_steps + j + 1) % l ≠ 0 := by
        intro j hj
        have e1 : (electraBatchStep g l k s a).1.global_steps + j + 1 =
            s.global_steps + (j + 1) + 1 := by
          rw [hgs]
          omega
        rw [e1]
        refine hmid (j + 1) ?_
        simp only [List.length_cons] at hj ⊢
        omega
      have hend1 : ((electraBatchStep g l k s a).1.global_steps +
          (b :: rest2).length) % l = 0 := by
        have e1 : (electraBatchStep g l k s a).1.global_steps +
            (b :: rest2).length =
            s.global_steps + (a :: b :: rest2).length := by
          rw [hgs]
          simp only [List.length_cons]
          omega
        rw [e1]
        exact hend
      obtain ⟨ef, he1, he2, he3, he4, he5⟩ :=
        ih (electraBatchStep g l k s a).1 hmid1 hend1 (by simp)
      have hidx : (electraRun g l k s (a :: b :: rest2)).2[
          (a :: b :: rest2).length - 1]? =
          (electraRun g l k (electraBatchStep g l k s a).1
            (b :: rest2)).2[(b :: rest2).length - 1]? := by
        rw [electraRun_cons]
        simp only [List.length_cons, Nat.add_sub_cancel,
          List.getElem?_cons_succ]
      have hstate1 : (electraRun g l k s (a :: b :: rest2)).1 =
          (electraRun g l k (electraBatchStep g l k s a).1
            (b :: rest2)).1 := by
        rw [electraRun_cons]
      refine ⟨ef, hidx.trans he1, ?_, ?_, ?_, ?_⟩
      · rw [he2]
        congr 1
        rw [hsl, hls]
        simp only [List.sum_cons, List.length_cons]
        push_cast
        ring
      · rw [hstate1]
        exact he3
      · rw [hstate1]
        exact he4
      · rw [hstate1]
        exact he5

/-- Claim C6: in both train loops, starting right after a logging point
(accumulators zero) and running exactly until the next batch at which the
global step counter is a multiple of log_steps, the logging branch at that
batch reports the mean step_loss / local_steps of exactly the batches
processed since the previous logging point, writes the accumulated losses
dict to the results file, and resets the running loss and the local step
counter to zero. -/
theorem periodic_logging_mean_and_reset (g l k : Nat) (s : RLoopState)
    (t : ELoopState) (L : List ℚ) (hL : L ≠ [])
    (hs1 : s.step_loss = 0) (hs2 : s.local_steps = 0)
    (ht1 : t.step_loss = 0) (ht2 : t.local_steps = 0)
    (hmidR : ∀ j, j + 1 < L.length → (s.global_steps + j + 1) % l ≠ 0)
    (hendR : (s.global_steps + L.length) % l = 0)
    (hmidE : ∀ j, j + 1 < L.length → (t.global_steps + j + 1) % l ≠ 0)
    (hendE : (t.global_steps + L.length) % l = 0) :
    (∃ ef, (reformerRun g l k s L).2[L.length - 1]? = some ef ∧
       ef.logged = some (L.sum / (L.length : ℚ)) ∧
       ef.wroteLosses = some ((reformerRun g l k s L).1.losses) ∧
       (reformerRun g l k s L).1.step_loss = 0 ∧
       (reformerRun g l k s L).1.local_steps = 0) ∧
    (∃ ef, (electraRun g l k t L).2[L.length - 1]? = some ef ∧
       ef.logged = some (L.sum / (L.length : ℚ)) ∧
       ef.wroteLosses = some ((electraRun g l k t L).1.losses) ∧
       (electraRun g l k t L).1.step_loss = 0 ∧
       (electraRun g l k t L).1.local_steps = 0) := by
  constructor
  · obtain ⟨ef, h1, h2, h3, h4, h5⟩ :=
      reformerRun_segment g l k L s hmidR hendR hL
    refine ⟨ef, h1, ?_, h3, h4, h5⟩
    rw [h2, hs1, hs2]
    norm_num
  · obtain ⟨ef, h1, h2, h3, h4, h5⟩ :=
      electraRun_segment g l k L t hmidE hendE hL
    refine ⟨ef, h1, ?_, h3, h4, h5⟩
    rw [h2, ht1, ht2]
    norm_num

/-- Witness for periodic_logging_mean_and_reset: from fresh states with
log_steps = 2 over the two-batch segment of losses 3 and 5, the logging
branch at the second batch reports the mean 4 in both trainers. -/
theorem periodic_logging_mean_and_reset_witness :
    (reformerRun 3 2 3 ⟨[], 0, 0, 0⟩ [3, 5]).2[1]?.map RBatchEff.logged =
      some (some 4) ∧
    (electraRun 3 2 3 ⟨[], 0, 0, 0⟩ [3, 5]).2[1]?.map EBatchEff.logged =
      some (some 4) := by
  obtain ⟨⟨ef, h1, h2, _, _, _⟩, ⟨ef2, g1, g2, _, _, _⟩⟩ :=
    periodic_logging_mean_and_reset 3 2 3 ⟨[], 0, 0, 0⟩ ⟨[], 0, 0, 0⟩
      [3, 5] (by simp) rfl rfl rfl rfl
      (by
        intro j hj
        have hj2 : j + 1 < 2 := hj
        show (0 + j + 1) % 2 ≠ 0
        omega)
      (by decide)
      (by
        intro j hj
        have hj2 : j + 1 < 2 := hj
        show (0 + j + 1) % 2 ≠ 0
        omega)
      (by decide)
    
  constructor
  · have h1b : (reformerRun 3 2 3 ⟨[], 0, 0, 0⟩ [3, 5]).2[1]? = some ef := h1
    rw [h1b]
    show some ef.logged = some (some 4)
    rw [h2]
    norm_num
  · have g1b : (electraRun 3 2 3 ⟨[], 0, 0, 0⟩ [3, 5]).2[1]? = some ef2 := g1
    rw [g1b]
    show some ef2.logged = some (some 4)
    rw [g2]
    norm_num
